import Mathlib

/-!
A verification development for the Space-Rover control software
(`src/rover_project`).  The Python code is shallowly embedded: each
relevant function is translated into a Lean definition, with floats
modelled as rationals, stateful updates as explicit state passing, and
the sensor/camera inputs of the decision functions passed as explicit
parameters (in the source they are delivered by collaborator objects
whose wiring is commented out).
-/

namespace Rover

/-- The four sensing directions, as in `obstacle_detector.Direction` and
the string keys used throughout (`front`, `back`, `left`, `right`). -/
inductive Direction where
  | front
  | back
  | left
  | right
  deriving DecidableEq, Repr

/-- A snapshot of the four IR proximity sensors, as returned by
`SensorManager.read_all_ir_sensors` (a mapping from direction key to a
boolean "obstacle present"). -/
structure IRStatus where
  front : Bool
  back : Bool
  left : Bool
  right : Bool
  deriving DecidableEq, Repr

/-- The possible values of the `recommended_direction` field of a camera
decision produced by `RoverMultiCameraDetector.get_best_direction`:
one of the four direction strings or the string `stop`. -/
inductive Rec where
  | front
  | back
  | left
  | right
  | stop
  deriving DecidableEq, Repr

/-- The dictionary returned by `RoverMainControl.make_navigation_decision`:
fields `action`, `reason`, `direction` (`None` or a direction string) and
`duration` (seconds). -/
structure NavigationDecision where
  action : String
  reason : String
  direction : Option String
  duration : ℚ
  deriving DecidableEq, Repr

/-- Embedding of `RoverMainControl.make_navigation_decision`
(`rover_main.py` lines 281-347).  The IR snapshot and the camera
recommendation are the two inputs the function branches on; in the
source they are read at the top of the function (the hardware reads are
commented out there, so the branching logic below is the whole
algorithmic content).  The chain of `if`/`elif` tests is reproduced
branch by branch, including the redundant re-test of the front IR
sensor in the `front` branch. -/
def make_navigation_decision (ir : IRStatus) (camera : Rec) : NavigationDecision :=
  if ir.front then
    { action := "stop"
      reason := "Front IR sensor triggered - obstacle too close!"
      direction := none
      duration := 0 }
  else if camera = Rec.front ∧ ¬ ir.front then
    { action := "forward"
      reason := "Path clear ahead"
      direction := some "forward"
      duration := 2.0 }
  else if camera = Rec.left ∧ ¬ ir.left then
    { action := "turn_left"
      reason := "Camera suggests left turn"
      direction := some "left"
      duration := 0.5 }
  else if camera = Rec.right ∧ ¬ ir.right then
    { action := "turn_right"
      reason := "Camera suggests right turn"
      direction := some "right"
      duration := 0.5 }
  else if camera = Rec.back ∧ ¬ ir.back then
    { action := "backward"
      reason := "Reversing to find alternate path"
      direction := some "backward"
      duration := 1.0 }
  else
    { action := "spin_right"
      reason := "No clear path - rotating to scan area"
      direction := some "spin_right"
      duration := 0.8 }

/-- The motor command issued by a `MotorController` navigation helper:
which movement routine is called, with which speed and (when one is
passed) which duration.  `move_forward` is called without a duration in
`navigate_with_camera_and_ir`, so `moveForward` carries only a speed. -/
inductive MotorCmd where
  | moveForward (speed : ℚ)
  | moveBackward (speed : ℚ) (duration : ℚ)
  | turnLeft (speed : ℚ) (duration : ℚ)
  | turnRight (speed : ℚ) (duration : ℚ)
  | stop
  deriving DecidableEq, Repr

/-- Embedding of `MotorController.navigate_with_camera_and_ir`
(`motor_controller_1.py` lines 244-315).  The function performs one
motor call and returns an action string; the embedding returns the
pair (motor command, action string).  `speed` is the value after the
`speed or self.current_speed` defaulting. -/
def navigate_with_camera_and_ir (camera : Rec) (ir : IRStatus) (speed : ℚ) :
    MotorCmd × String :=
  if ir.front then
    (MotorCmd.stop, "EMERGENCY STOP - Front IR triggered")
  else if camera = Rec.front then
    if ¬ ir.front then
      (MotorCmd.moveForward speed, "Moving forward (camera + IR clear)")
    else
      (MotorCmd.stop, "Stopped - IR overrides camera")
  else if camera = Rec.left then
    if ¬ ir.left then
      (MotorCmd.turnLeft speed 0.5, "Turning left (camera guidance)")
    else if ¬ ir.right then
      (MotorCmd.turnRight speed 0.5, "Turning right (left blocked by IR)")
    else
      (MotorCmd.stop, "Stopped - sides blocked")
  else if camera = Rec.right then
    if ¬ ir.right then
      (MotorCmd.turnRight speed 0.5, "Turning right (camera guidance)")
    else if ¬ ir.left then
      (MotorCmd.turnLeft speed 0.5, "Turning left (right blocked by IR)")
    else
      (MotorCmd.stop, "Stopped - sides blocked")
  else if camera = Rec.back then
    if ¬ ir.back then
      (MotorCmd.moveBackward speed 0.8, "Reversing (camera suggests)")
    else
      (MotorCmd.stop, "Stopped - back blocked")
  else
    (MotorCmd.stop, "Stopped - no clear path")

end Rover

open Rover

/-- C1: whenever the front proximity sensor reports an obstacle, the
decision engine returns the stop decision with direction `None` and
duration `0`, identically for every vision recommendation (so the
vision input is never consulted). -/
theorem C1_front_proximity_stop (ir : IRStatus) (camera : Rec)
    (h : ir.front = true) :
    make_navigation_decision ir camera =
      { action := "stop"
        reason := "Front IR sensor triggered - obstacle too close!"
        direction := none
        duration := 0 } := by
  simp [make_navigation_decision, h]

/-- Witness for C1 at a concrete input: front sensor blocked, vision
recommending `left`. -/
theorem C1_front_proximity_stop_witness :
    (IRStatus.mk true false false false).front = true ∧
    make_navigation_decision (IRStatus.mk true false false false) Rec.left =
      { action := "stop"
        reason := "Front IR sensor triggered - obstacle too close!"
        direction := none
        duration := 0 } :=
  ⟨rfl, C1_front_proximity_stop (IRStatus.mk true false false false) Rec.left rfl⟩

/-- C2 counterexample: with vision recommending `left`, the left IR
sensor blocked, the right (and front) IR sensors clear,
`make_navigation_decision` does not return a turn-right decision: it
falls through to the spin-right branch with duration `0.8`. -/
theorem C2_counterexample :
    ¬ ((make_navigation_decision (IRStatus.mk false false true false) Rec.left).action
        = "turn_right" ∧
       (make_navigation_decision (IRStatus.mk false false true false) Rec.left).direction
        = some "right" ∧
       (make_navigation_decision (IRStatus.mk false false true false) Rec.left).duration
        = 0.5) ∧
    make_navigation_decision (IRStatus.mk false false true false) Rec.left =
      { action := "spin_right"
        reason := "No clear path - rotating to scan area"
        direction := some "spin_right"
        duration := 0.8 } := by
  constructor
  · intro hcl
    have h1 : ("spin_right" : String) = "turn_right" := hcl.1
    exact absurd h1 (by decide)
  · rfl

/-- C2 amended: with the front sensor clear, vision recommending `left`
and the left IR sensor blocked, `make_navigation_decision` itself has
no side fallback and returns the spin-right decision (duration `0.8`);
the claimed side fallback is implemented in
`MotorController.navigate_with_camera_and_ir`, which turns right for
`0.5` seconds when the right IR sensor is clear and stops with
"Stopped - sides blocked" when it is also blocked. -/
theorem C2_amended_fallback (ir : IRStatus) (speed : ℚ)
    (hf : ir.front = false) (hl : ir.left = true) :
    make_navigation_decision ir Rec.left =
      { action := "spin_right"
        reason := "No clear path - rotating to scan area"
        direction := some "spin_right"
        duration := 0.8 } ∧
    (ir.right = false →
      navigate_with_camera_and_ir Rec.left ir speed =
        (MotorCmd.turnRight speed 0.5, "Turning right (left blocked by IR)")) ∧
    (ir.right = true →
      navigate_with_camera_and_ir Rec.left ir speed =
        (MotorCmd.stop, "Stopped - sides blocked")) := by
  refine ⟨?_, ?_, ?_⟩
  · simp [make_navigation_decision, hf, hl]
  · intro hr
    simp [navigate_with_camera_and_ir, hf, hl, hr]
  · intro hr
    simp [navigate_with_camera_and_ir, hf, hl, hr]

/-- Witness for the amended C2 at a concrete input: front and right
clear, left blocked, speed 50. -/
theorem C2_amended_fallback_witness :
    make_navigation_decision (IRStatus.mk false false true false) Rec.left =
      { action := "spin_right"
        reason := "No clear path - rotating to scan area"
        direction := some "spin_right"
        duration := 0.8 } ∧
    navigate_with_camera_and_ir Rec.left (IRStatus.mk false false true false) 50 =
      (MotorCmd.turnRight 50 0.5, "Turning right (left blocked by IR)") := by
  have h := C2_amended_fallback (IRStatus.mk false false true false) 50 rfl rfl
  exact ⟨h.1, h.2.1 rfl⟩

/-- C5: a decision's `direction` field is `None` exactly when its
`action` is `stop`, for every IR snapshot and vision recommendation. -/
theorem C5_direction_none_iff_stop (ir : IRStatus) (camera : Rec) :
    (make_navigation_decision ir camera).direction = none ↔
      (make_navigation_decision ir camera).action = "stop" := by
  cases camera <;>
    simp only [make_navigation_decision] <;>
    split_ifs <;> simp

namespace Rover

/-- The dead-reckoning pose kept in `RoverMainControl.position`: the
dictionary with keys `x`, `y` and `heading` (degrees). -/
structure Pose where
  x : ℚ
  y : ℚ
  heading : ℚ
  deriving DecidableEq, Repr

/-- Python's `%` on numbers with a positive right operand:
`a % b = a - b * floor(a / b)`, which always lands in `[0, b)`. -/
def pymod (a b : ℚ) : ℚ := a - b * ⌊a / b⌋

/-- `RoverMainControl.distance_per_second` as set in `__init__`. -/
def distance_per_second : ℚ := 0.15

/-- Embedding of `RoverMainControl.update_position` (`rover_main.py`
lines 103-134).  `cosF` and `sinF` stand for the compositions
`math.cos(math.radians(heading))` and `math.sin(math.radians(heading))`;
the claims about this function hold for every choice of these two
functions, so they are taken as parameters.  Directions the `if` chain
does not recognise leave the pose untouched (the source has no `else`
branch and raises nothing). -/
def update_position (cosF sinF : ℚ → ℚ) (p : Pose) (direction : String)
    (duration : ℚ) : Pose :=
  let distance := distance_per_second * duration
  if direction = "forward" then
    { p with
      x := p.x + distance * cosF p.heading
      y := p.y + distance * sinF p.heading }
  else if direction = "backward" then
    { p with
      x := p.x - distance * cosF p.heading
      y := p.y - distance * sinF p.heading }
  else if direction = "left" then
    { p with heading := pymod (p.heading + 45) 360 }
  else if direction = "right" then
    { p with heading := pymod (p.heading - 45) 360 }
  else if direction = "spin_left" then
    { p with heading := pymod (p.heading + 90) 360 }
  else if direction = "spin_right" then
    { p with heading := pymod (p.heading - 90) 360 }
  else
    p

/-- `pymod a b` lies in `[0, b)` whenever `b > 0`. -/
theorem pymod_nonneg_lt (a b : ℚ) (hb : 0 < b) :
    0 ≤ pymod a b ∧ pymod a b < b := by
  have hbne : b ≠ 0 := ne_of_gt hb
  have hfl : ((⌊a / b⌋ : ℤ) : ℚ) ≤ a / b := Int.floor_le (a / b)
  have hfu : a / b < (⌊a / b⌋ : ℤ) + 1 := Int.lt_floor_add_one (a / b)
  have hdiv : b * (a / b) = a := mul_div_cancel₀ a hbne
  constructor
  · have h1 : b * ((⌊a / b⌋ : ℤ) : ℚ) ≤ b * (a / b) :=
      mul_le_mul_of_nonneg_left hfl (le_of_lt hb)
    rw [hdiv] at h1
    unfold pymod
    linarith
  · have h2 : b * (a / b) < b * (((⌊a / b⌋ : ℤ) : ℚ) + 1) :=
      (mul_lt_mul_left hb).mpr hfu
    rw [hdiv] at h2
    unfold pymod
    linarith

end Rover

/-- C8: moving forward for `t` seconds and then backward for `t` seconds
returns the planar coordinates exactly to their starting values, and
neither update touches the heading.  This holds for every starting pose,
every duration and every pair of trigonometric evaluation functions. -/
theorem C8_forward_backward_round_trip (cosF sinF : ℚ → ℚ) (p : Pose) (t : ℚ) :
    (update_position cosF sinF (update_position cosF sinF p "forward" t)
        "backward" t).x = p.x ∧
    (update_position cosF sinF (update_position cosF sinF p "forward" t)
        "backward" t).y = p.y ∧
    (update_position cosF sinF p "forward" t).heading = p.heading ∧
    (update_position cosF sinF (update_position cosF sinF p "forward" t)
        "backward" t).heading = p.heading := by
  simp [update_position]

/-- C9: the four turning commands change the heading by a fixed amount
(+45, -45, +90 and -90 degrees respectively, modulo 360), the result
never depends on the duration argument, and the new heading always lies
in `[0, 360)`. -/
theorem C9_turn_headings (cosF sinF : ℚ → ℚ) (p : Pose) (t u : ℚ) :
    (update_position cosF sinF p "left" t = update_position cosF sinF p "left" u ∧
     update_position cosF sinF p "right" t = update_position cosF sinF p "right" u ∧
     update_position cosF sinF p "spin_left" t = update_position cosF sinF p "spin_left" u ∧
     update_position cosF sinF p "spin_right" t = update_position cosF sinF p "spin_right" u) ∧
    ((∃ k : ℤ, (update_position cosF sinF p "left" t).heading = p.heading + 45 - 360 * k) ∧
     (∃ k : ℤ, (update_position cosF sinF p "right" t).heading = p.heading - 45 - 360 * k) ∧
     (∃ k : ℤ, (update_position cosF sinF p "spin_left" t).heading = p.heading + 90 - 360 * k) ∧
     (∃ k : ℤ, (update_position cosF sinF p "spin_right" t).heading = p.heading - 90 - 360 * k)) ∧
    (∀ d, d ∈ (["left", "right", "spin_left", "spin_right"] : List String) →
      0 ≤ (update_position cosF sinF p d t).heading ∧
        (update_position cosF sinF p d t).heading < 360) := by
  refine ⟨⟨?_, ?_, ?_, ?_⟩, ⟨?_, ?_, ?_, ?_⟩, ?_⟩
  · simp [update_position]
  · simp [update_position]
  · simp [update_position]
  · simp [update_position]
  · exact ⟨⌊(p.heading + 45) / 360⌋, by simp [update_position, pymod]; try ring⟩
  · exact ⟨⌊(p.heading - 45) / 360⌋, by simp [update_position, pymod]; try ring⟩
  · exact ⟨⌊(p.heading + 90) / 360⌋, by simp [update_position, pymod]; try ring⟩
  · exact ⟨⌊(p.heading - 90) / 360⌋, by simp [update_position, pymod]; try ring⟩
  · intro d hd
    have h360 : (0 : ℚ) < 360 := by norm_num
    fin_cases hd
    · simpa [update_position] using pymod_nonneg_lt (p.heading + 45) 360 h360
    · simpa [update_position] using pymod_nonneg_lt (p.heading - 45) 360 h360
    · simpa [update_position] using pymod_nonneg_lt (p.heading + 90) 360 h360
    · simpa [update_position] using pymod_nonneg_lt (p.heading - 90) 360 h360

/-- C10: the four turning commands never change the planar coordinates,
and a direction string outside the recognised six leaves the whole pose
unchanged (the function is total: no error is raised). -/
theorem C10_turns_fix_xy_unknown_noop (cosF sinF : ℚ → ℚ) (p : Pose)
    (t : ℚ) (s : String)
    (hs : s ∉ (["forward", "backward", "left", "right", "spin_left",
      "spin_right"] : List String)) :
    (∀ d, d ∈ (["left", "right", "spin_left", "spin_right"] : List String) →
      (update_position cosF sinF p d t).x = p.x ∧
        (update_position cosF sinF p d t).y = p.y) ∧
    update_position cosF sinF p s t = p := by
  constructor
  · intro d hd
    fin_cases hd <;> simp [update_position]
  · simp only [List.mem_cons, List.not_mem_nil, or_false] at hs
    push_neg at hs
    obtain ⟨h1, h2, h3, h4, h5, h6⟩ := hs
    simp [update_position, h1, h2, h3, h4, h5, h6]

/-- Witness for C10 at concrete inputs: identity trig functions, the
pose `(1, 2, 30)`, duration `3`, and the unrecognised direction string
`hover`. -/
theorem C10_turns_fix_xy_unknown_noop_witness :
    (∀ d, d ∈ (["left", "right", "spin_left", "spin_right"] : List String) →
      (update_position id id (Pose.mk 1 2 30) d 3).x = (Pose.mk 1 2 30).x ∧
        (update_position id id (Pose.mk 1 2 30) d 3).y = (Pose.mk 1 2 30).y) ∧
    update_position id id (Pose.mk 1 2 30) "hover" 3 = Pose.mk 1 2 30 :=
  C10_turns_fix_xy_unknown_noop id id (Pose.mk 1 2 30) 3 "hover" (by decide)

namespace Rover

/-- The geometric data of one external contour extracted by the OpenCV
pipeline in `detect_obstacles`: its area (`cv2.contourArea`, a
non-negative float) and its axis-aligned bounding rectangle
(`cv2.boundingRect`, integer pixel coordinates). -/
structure Contour where
  area : ℚ
  x : ℕ
  y : ℕ
  w : ℕ
  h : ℕ
  deriving DecidableEq, Repr

/-- `RoverMultiCameraDetector.min_obstacle_area` as set in `__init__`. -/
def min_obstacle_area : ℚ := 1500

/-- `RoverMultiCameraDetector.safe_zone_width` as set in `__init__`. -/
def safe_zone_width : ℚ := 0.4

/-- One obstacle dictionary appended by the contour loop of
`detect_obstacles`: bounding box, center, area, relative position and
the `in_path` flag. -/
structure Obstacle where
  bbox : ℕ × ℕ × ℕ × ℕ
  center : ℕ × ℕ
  area : ℚ
  rel_position : ℚ × ℚ
  in_path : Bool
  deriving DecidableEq, Repr

/-- The obstacle dictionary built from one contour inside the loop of
`detect_obstacles` (`obstacle_detector.py` lines 73-87).  `center_x` is
`x + w // 2` with Python integer division; `rel_x` is
`(center_x - width // 2) / (width // 2)` with Python true division. -/
def mkObstacle (width height : ℕ) (c : Contour) : Obstacle :=
  let center_x : ℕ := c.x + c.w / 2
  let center_y : ℕ := c.y + c.h / 2
  let rel_x : ℚ := ((center_x : ℚ) - ((width / 2 : ℕ) : ℚ)) / ((width / 2 : ℕ) : ℚ)
  let rel_y : ℚ := ((center_y : ℚ) - ((height / 2 : ℕ) : ℚ)) / ((height / 2 : ℕ) : ℚ)
  { bbox := (c.x, c.y, c.w, c.h)
    center := (center_x, center_y)
    area := c.area
    rel_position := (rel_x, rel_y)
    in_path := decide (|rel_x| < safe_zone_width / 2) }

/-- Embedding of the contour-filtering loop of
`RoverMultiCameraDetector.detect_obstacles` (`obstacle_detector.py`
lines 69-89): each extracted contour contributes an obstacle exactly
when its area is strictly greater than `min_obstacle_area`.  The OpenCV
preprocessing (blur, Canny, dilation, erosion, contour extraction) is
the external image pipeline that produces the contour list, so the
embedding takes that list as input together with the frame size. -/
def detect_obstacles (width height : ℕ) (contours : List Contour) :
    List Obstacle :=
  contours.filterMap fun c =>
    if min_obstacle_area < c.area then some (mkObstacle width height c)
    else none

end Rover

/-- C6: a detected contour contributes its obstacle to the list returned
by `detect_obstacles` exactly when its area exceeds 1500; contours of
area 1500 or below are discarded. -/
theorem C6_area_threshold (width height : ℕ) (contours : List Contour)
    (c : Contour) (hc : c ∈ contours) :
    mkObstacle width height c ∈ detect_obstacles width height contours ↔
      1500 < c.area := by
  constructor
  · intro hmem
    obtain ⟨c', _, hc'⟩ := List.mem_filterMap.mp hmem
    by_cases harea : min_obstacle_area < c'.area
    · rw [if_pos harea] at hc'
      have : c'.area = c.area := congrArg Obstacle.area (Option.some.inj hc')
      rw [← this]
      exact harea
    · rw [if_neg harea] at hc'
      exact absurd hc' (by simp)
  · intro harea
    exact List.mem_filterMap.mpr
      ⟨c, hc, by rw [if_pos (show min_obstacle_area < c.area from harea)]⟩

/-- Witness for C6 at a concrete input: a 320×240 frame with one contour
of area 2000 (kept) — the equivalence evaluates to a true biconditional. -/
theorem C6_area_threshold_witness :
    Contour.mk 2000 10 10 50 40 ∈ [Contour.mk 2000 10 10 50 40] ∧
    (mkObstacle 320 240 (Contour.mk 2000 10 10 50 40) ∈
        detect_obstacles 320 240 [Contour.mk 2000 10 10 50 40] ↔
      1500 < (Contour.mk 2000 10 10 50 40).area) :=
  ⟨List.mem_singleton.mpr rfl,
    C6_area_threshold 320 240 [Contour.mk 2000 10 10 50 40]
      (Contour.mk 2000 10 10 50 40) (List.mem_singleton.mpr rfl)⟩

/-- C7: every obstacle produced by `detect_obstacles` has its `in_path`
flag set exactly when the horizontal component of its relative position
has absolute value below 0.2, which is half of the configured safe-zone
width 0.4. -/
theorem C7_in_path_iff (width height : ℕ) (contours : List Contour)
    (o : Obstacle) (ho : o ∈ detect_obstacles width height contours) :
    (o.in_path = true ↔ |o.rel_position.1| < 0.2) ∧
    safe_zone_width / 2 = 0.2 := by
  constructor
  · obtain ⟨c, _, hc⟩ := List.mem_filterMap.mp ho
    by_cases harea : min_obstacle_area < c.area
    · rw [if_pos harea] at hc
      rw [← Option.some.inj hc]
      simp only [mkObstacle, decide_eq_true_eq]
      constructor
      · intro h
        have : safe_zone_width / 2 = 0.2 := by norm_num [safe_zone_width]
        rw [← this]
        exact h
      · intro h
        have : safe_zone_width / 2 = 0.2 := by norm_num [safe_zone_width]
        rw [this]
        exact h
    · rw [if_neg harea] at hc
      exact absurd hc (by simp)
  · norm_num [safe_zone_width]

/-- Witness for C7 at a concrete input: the obstacle built from a
contour centered far to the left of a 320×240 frame is in the output
list and its flag agrees with the 0.2 test. -/
theorem C7_in_path_iff_witness :
    (mkObstacle 320 240 (Contour.mk 2000 0 10 40 40)).in_path = false ∧
    ((mkObstacle 320 240 (Contour.mk 2000 0 10 40 40)).in_path = true ↔
      |(mkObstacle 320 240 (Contour.mk 2000 0 10 40 40)).rel_position.1| < 0.2) := by
  have h := C7_in_path_iff 320 240 [Contour.mk 2000 0 10 40 40]
    (mkObstacle 320 240 (Contour.mk 2000 0 10 40 40))
    (List.mem_filterMap.mpr ⟨Contour.mk 2000 0 10 40 40,
      List.mem_singleton.mpr rfl, by norm_num [min_obstacle_area]⟩)
  refine ⟨?_, h.1⟩
  have hval : (mkObstacle 320 240 (Contour.mk 2000 0 10 40 40)).rel_position.1 =
      -7/8 := by
    norm_num [mkObstacle]
  by_contra hfalse
  have htrue : (mkObstacle 320 240 (Contour.mk 2000 0 10 40 40)).in_path = true := by
    revert hfalse
    cases (mkObstacle 320 240 (Contour.mk 2000 0 10 40 40)).in_path <;> simp
  have := h.1.mp htrue
  have habs : |(-7/8 : ℚ)| = 7/8 := by
    rw [abs_of_nonpos (by norm_num)]
    norm_num
  rw [hval, habs] at this
  norm_num at this

namespace Rover

/-- A per-direction analysis result, as returned by
`RoverMultiCameraDetector.analyze_direction`: availability, clearance,
total obstacle count and the count of in-path obstacles
(`path_obstacles`). -/
structure DirReading where
  available : Bool
  clear : Bool
  obstacle_count : ℕ
  path_obstacles : ℕ
  deriving DecidableEq, Repr

/-- The camera recommendation string corresponding to a direction. -/
def Rec.ofDir : Direction → Rec
  | Direction.front => Rec.front
  | Direction.back => Rec.back
  | Direction.left => Rec.left
  | Direction.right => Rec.right

/-- The decision dictionary returned by
`RoverMultiCameraDetector.get_best_direction`.  In the source, the
caution branch carries an extra key `caution: True`; its absence in the
other branches is modelled as `caution := false`. -/
structure CameraDecision where
  recommended_direction : Rec
  reason : String
  should_move : Bool
  caution : Bool
  deriving DecidableEq, Repr

/-- `direction.capitalize()` for the four direction keys. -/
def capName : Direction → String
  | Direction.front => "Front"
  | Direction.back => "Back"
  | Direction.left => "Left"
  | Direction.right => "Right"

/-- The exploration priority list of `get_best_direction`
(`obstacle_detector.py` line 137). -/
def priority : List Direction :=
  [Direction.front, Direction.left, Direction.right, Direction.back]

/-- The camera directions in the iteration order of the default
`camera_indices` dictionary of `RoverMultiCameraDetector.__init__`
(insertion order `front`, `back`, `left`, `right`), which is the order
`results` is built and iterated in. -/
def default_cams : List Direction :=
  [Direction.front, Direction.back, Direction.left, Direction.right]

/-- Python's `min(items, key=f)` over a list: the first element
attaining the minimum key (later elements replace the current best only
on a strictly smaller key); `none` on the empty list (where Python
raises). -/
def minKeyFirst (f : Direction → ℕ) : List Direction → Option Direction
  | [] => none
  | x :: xs => some (xs.foldl (fun best y => if f y < f best then y else best) x)

/-- Embedding of `RoverMultiCameraDetector.get_best_direction`
(`obstacle_detector.py` lines 123-168).  `cams` is the list of camera
directions (the keys of `self.cameras`, in insertion order) and
`readings` the per-direction analysis results.  The first loop walks
the priority order and returns the first direction that has a camera
and whose reading is `clear`; otherwise the direction with the fewest
in-path obstacles among the `available` ones is chosen the way Python's
`min` chooses it (first minimum in `results` iteration order); with no
available direction the stop decision is returned. -/
def get_best_direction (cams : List Direction)
    (readings : Direction → DirReading) : CameraDecision :=
  match priority.find? (fun d => cams.contains d && (readings d).clear) with
  | some d =>
    { recommended_direction := Rec.ofDir d
      reason := capName d ++ " path is clear"
      should_move := true
      caution := false }
  | none =>
    match minKeyFirst (fun d => (readings d).path_obstacles)
        (cams.filter (fun d => (readings d).available)) with
    | some d =>
      { recommended_direction := Rec.ofDir d
        reason := capName d ++ " has fewest obstacles"
        should_move := true
        caution := true }
    | none =>
      { recommended_direction := Rec.stop
        reason := "All paths blocked or cameras unavailable"
        should_move := false
        caution := false }

/-- Position of a direction in the priority order. -/
def pIndex : Direction → ℕ
  | Direction.front => 0
  | Direction.left => 1
  | Direction.right => 2
  | Direction.back => 3

/-- Position of a direction in the default camera iteration order. -/
def camIndex : Direction → ℕ
  | Direction.front => 0
  | Direction.back => 1
  | Direction.left => 2
  | Direction.right => 3

theorem mem_priority (d : Direction) : d ∈ priority := by
  cases d <;> simp [priority]

theorem mem_default_cams (d : Direction) : d ∈ default_cams := by
  cases d <;> simp [default_cams]

theorem contains_default_cams (d : Direction) :
    default_cams.contains d = true := by
  cases d <;> rfl

theorem priority_pairwise :
    priority.Pairwise (fun a b => pIndex a < pIndex b) := by
  simp [priority, pIndex]

theorem default_cams_pairwise :
    default_cams.Pairwise (fun a b => camIndex a < camIndex b) := by
  simp [default_cams, camIndex]

/-- A successful `find?` splits its list into a prefix of elements
failing the predicate, the found element, and a suffix. -/
theorem find?_decomp {p : Direction → Bool} :
    ∀ {l : List Direction} {a : Direction}, l.find? p = some a →
      p a = true ∧ ∃ l₁ l₂, l = l₁ ++ a :: l₂ ∧ ∀ y ∈ l₁, p y = false := by
  intro l
  induction l with
  | nil => intro a h; simp at h
  | cons x xs ih =>
    intro a h
    cases hx : p x
    · rw [List.find?_cons_of_neg _ (by simp [hx])] at h
      obtain ⟨hpa, l₁, l₂, hl, hpre⟩ := ih h
      refine ⟨hpa, x :: l₁, l₂, by rw [hl]; rfl, ?_⟩
      intro y hy
      rcases List.mem_cons.mp hy with rfl | hy'
      · exact hx
      · exact hpre y hy'
    · rw [List.find?_cons_of_pos _ hx] at h
      obtain rfl := Option.some.inj h
      exact ⟨hx, [], xs, rfl, by simp⟩

/-- Invariant of the fold inside `minKeyFirst`: the result is either
the seed, which is then a lower bound for the whole list, or an element
of the list that is strictly smaller than the seed and every element
before it, and no larger than every element after it. -/
theorem foldl_min_spec (f : Direction → ℕ) :
    ∀ (xs : List Direction) (b r : Direction),
      xs.foldl (fun best y => if f y < f best then y else best) b = r →
      (r = b ∧ ∀ y ∈ xs, f b ≤ f y) ∨
      (∃ l₁ l₂, xs = l₁ ++ r :: l₂ ∧ f r < f b ∧ (∀ y ∈ l₁, f r < f y) ∧
        ∀ y ∈ l₂, f r ≤ f y) := by
  intro xs
  induction xs with
  | nil =>
    intro b r h
    left
    exact ⟨h.symm, by simp⟩
  | cons y ys ih =>
    intro b r h
    rw [List.foldl_cons] at h
    by_cases hyb : f y < f b
    · rw [if_pos hyb] at h
      rcases ih y r h with ⟨hr, hall⟩ | ⟨l₁, l₂, hys, hlt, hpre, hsuf⟩
      · subst hr
        right
        exact ⟨[], ys, rfl, hyb, by simp, hall⟩
      · right
        refine ⟨y :: l₁, l₂, by rw [hys]; rfl, lt_trans hlt hyb, ?_, hsuf⟩
        intro z hz
        rcases List.mem_cons.mp hz with rfl | hz'
        · exact hlt
        · exact hpre z hz'
    · rw [if_neg hyb] at h
      have hby : f b ≤ f y := le_of_not_lt hyb
      rcases ih b r h with ⟨hr, hall⟩ | ⟨l₁, l₂, hys, hlt, hpre, hsuf⟩
      · left
        refine ⟨hr, ?_⟩
        intro z hz
        rcases List.mem_cons.mp hz with rfl | hz'
        · exact hby
        · exact hall z hz'
      · right
        refine ⟨y :: l₁, l₂, by rw [hys]; rfl, hlt, ?_, hsuf⟩
        intro z hz
        rcases List.mem_cons.mp hz with rfl | hz'
        · exact lt_of_lt_of_le hlt hby
        · exact hpre z hz'

/-- Python's `min` returns the first minimum: it splits the list into a
prefix of strictly larger elements, the result, and a suffix of
no-smaller elements. -/
theorem minKeyFirst_decomp (f : Direction → ℕ) {l : List Direction}
    {r : Direction} (h : minKeyFirst f l = some r) :
    ∃ l₁ l₂, l = l₁ ++ r :: l₂ ∧ (∀ y ∈ l₁, f r < f y) ∧
      ∀ y ∈ l₂, f r ≤ f y := by
  cases l with
  | nil => simp [minKeyFirst] at h
  | cons x xs =>
    have hfold : xs.foldl (fun best y => if f y < f best then y else best) x = r :=
      Option.some.inj (by simpa [minKeyFirst] using h)
    rcases foldl_min_spec f xs x r hfold with ⟨hr, hall⟩ | ⟨l₁, l₂, hxs, hlt, hpre, hsuf⟩
    · subst hr
      exact ⟨[], xs, rfl, by simp, hall⟩
    · refine ⟨x :: l₁, l₂, by rw [hxs]; rfl, ?_, hsuf⟩
      intro y hy
      rcases List.mem_cons.mp hy with rfl | hy'
      · exact hlt
      · exact hpre y hy'

/-- For a pairwise-increasing list, elements after a split point are
larger than the split element. -/
theorem pairwise_suffix {R : Direction → Direction → Prop}
    {l l₁ l₂ : List Direction} {a : Direction}
    (hp : l.Pairwise R) (hl : l = l₁ ++ a :: l₂) : ∀ y ∈ l₂, R a y := by
  subst hl
  have h2 := (List.pairwise_append.mp hp).2.1
  exact (List.pairwise_cons.mp h2).1

end Rover

namespace Rover

/-- A readings map with a reading that is clear but not available in
front, and an available-and-clear reading on the left. -/
def exC4 : Direction → DirReading
  | Direction.front => DirReading.mk false true 0 0
  | Direction.left => DirReading.mk true true 0 0
  | _ => DirReading.mk false false 0 0

/-- A readings map with no clear direction, exactly two available
directions (`back` and `left`), and a tie on `path_obstacles`. -/
def exC3 : Direction → DirReading
  | Direction.back => DirReading.mk true false 1 1
  | Direction.left => DirReading.mk true false 1 1
  | _ => DirReading.mk false false 0 0

end Rover

/-- C4 counterexample: on a readings map whose front reading is clear
but not available while the left reading is available and clear, the
first selection step of `get_best_direction` picks `front` (it tests
only `clear`, not `available && clear`), so the arbiter neither returns
the first available-and-clear direction (`left`) nor avoids
clear-but-unavailable readings. -/
theorem C4_counterexample :
    (exC4 Direction.left).available = true ∧
    (exC4 Direction.left).clear = true ∧
    (exC4 Direction.front).available = false ∧
    (exC4 Direction.front).clear = true ∧
    (get_best_direction default_cams exC4).recommended_direction = Rec.front ∧
    (get_best_direction default_cams exC4).recommended_direction ≠
      Rec.ofDir Direction.left := by
  refine ⟨rfl, rfl, rfl, rfl, rfl, ?_⟩
  intro h
  exact absurd h (by decide)

/-- C4 amended: for every readings map in which a clear reading is
always available (which is what `analyze_direction` guarantees: an
unavailable direction is reported with `clear = false`), containing at
least one available-and-clear direction, `get_best_direction` over the
default camera set returns the first available-and-clear direction in
the priority order Front, Left, Right, Back, with no caution flag. -/
theorem C4_amended (readings : Direction → DirReading)
    (hwf : ∀ d, (readings d).clear = true → (readings d).available = true)
    (hex : ∃ d, (readings d).available = true ∧ (readings d).clear = true) :
    ∃ d, (get_best_direction default_cams readings).recommended_direction =
        Rec.ofDir d ∧
      (get_best_direction default_cams readings).caution = false ∧
      (get_best_direction default_cams readings).should_move = true ∧
      (readings d).available = true ∧ (readings d).clear = true ∧
      ∀ e, (readings e).available = true → (readings e).clear = true →
        pIndex d ≤ pIndex e := by
  obtain ⟨d0, _, hc0⟩ := hex
  have hne : priority.find?
      (fun d => default_cams.contains d && (readings d).clear) ≠ none := by
    intro hnone
    have hfail := List.find?_eq_none.mp hnone d0 (mem_priority d0)
    apply hfail
    simp [hc0, mem_default_cams d0]
  obtain ⟨d, hd⟩ := Option.ne_none_iff_exists'.mp hne
  obtain ⟨hpd, l₁, l₂, hdec, hpre⟩ := find?_decomp hd
  have hcd : (readings d).clear = true := by
    rw [Bool.and_eq_true] at hpd
    exact hpd.2
  have hgb : get_best_direction default_cams readings =
      { recommended_direction := Rec.ofDir d
        reason := capName d ++ " path is clear"
        should_move := true
        caution := false } := by
    unfold get_best_direction
    rw [hd]
  refine ⟨d, by rw [hgb], by rw [hgb], by rw [hgb], hwf d hcd, hcd, ?_⟩
  intro e _ hce
  · have hep : (default_cams.contains e && (readings e).clear) = true := by
      simp [hce, mem_default_cams e]
    have hmem : e ∈ priority := mem_priority e
    rw [hdec] at hmem
    rcases List.mem_append.mp hmem with h1 | h2
    · rw [hpre e h1] at hep
      exact absurd hep (by simp)
    · rcases List.mem_cons.mp h2 with rfl | h3
      · exact le_refl _
      · exact le_of_lt (pairwise_suffix priority_pairwise hdec e h3)

/-- Witness for the amended C4: every direction available and clear. -/
theorem C4_amended_witness :
    ∃ d, (get_best_direction default_cams
        (fun _ => DirReading.mk true true 0 0)).recommended_direction =
        Rec.ofDir d ∧
      (get_best_direction default_cams
        (fun _ => DirReading.mk true true 0 0)).caution = false ∧
      (get_best_direction default_cams
        (fun _ => DirReading.mk true true 0 0)).should_move = true ∧
      ((fun (_ : Direction) => DirReading.mk true true 0 0) d).available = true ∧
      ((fun (_ : Direction) => DirReading.mk true true 0 0) d).clear = true ∧
      ∀ e, ((fun (_ : Direction) => DirReading.mk true true 0 0) e).available = true →
        ((fun (_ : Direction) => DirReading.mk true true 0 0) e).clear = true →
        pIndex d ≤ pIndex e :=
  C4_amended (fun _ => DirReading.mk true true 0 0) (fun _ _ => rfl)
    ⟨Direction.front, rfl, rfl⟩

/-- C3 counterexample: on a readings map where no direction is clear,
`back` and `left` are the only available directions and their in-path
obstacle counts tie at 1, `get_best_direction` returns `back` — the
tie goes to the camera iteration order `front, back, left, right`, not
to the claimed priority order `Front, Left, Right, Back`, which would
pick `left`. -/
theorem C3_counterexample :
    (exC3 Direction.front).clear = false ∧
    (exC3 Direction.back).clear = false ∧
    (exC3 Direction.left).clear = false ∧
    (exC3 Direction.right).clear = false ∧
    (exC3 Direction.front).available = false ∧
    (exC3 Direction.right).available = false ∧
    (exC3 Direction.back).available = true ∧
    (exC3 Direction.left).available = true ∧
    (exC3 Direction.back).path_obstacles = 1 ∧
    (exC3 Direction.left).path_obstacles = 1 ∧
    (get_best_direction default_cams exC3).recommended_direction = Rec.back ∧
    (get_best_direction default_cams exC3).recommended_direction ≠
      Rec.ofDir Direction.left := by
  refine ⟨rfl, rfl, rfl, rfl, rfl, rfl, rfl, rfl, rfl, rfl, rfl, ?_⟩
  intro h
  exact absurd h (by decide)

/-- C3 amended: for every readings map in which a clear reading is
always available, no available direction is clear, and at least one
direction is available, `get_best_direction` over the default camera
set marks the result with caution and selects an available direction
of minimum in-path obstacle count — but ties are broken by the camera
iteration order `front, back, left, right` (so on equal counts Back
beats Left, unlike the claimed priority order). -/
theorem C3_amended (readings : Direction → DirReading)
    (hwf : ∀ d, (readings d).clear = true → (readings d).available = true)
    (hnc : ∀ d, (readings d).available = true → (readings d).clear = false)
    (hex : ∃ d, (readings d).available = true) :
    ∃ d, (get_best_direction default_cams readings).recommended_direction =
        Rec.ofDir d ∧
      (get_best_direction default_cams readings).caution = true ∧
      (get_best_direction default_cams readings).should_move = true ∧
      (readings d).available = true ∧
      (∀ e, (readings e).available = true →
        (readings d).path_obstacles ≤ (readings e).path_obstacles) ∧
      ∀ e, (readings e).available = true →
        (readings e).path_obstacles = (readings d).path_obstacles →
        camIndex d ≤ camIndex e := by
  obtain ⟨d0, ha0⟩ := hex
  have hclear : ∀ d, (readings d).clear = false := by
    intro d
    cases hc : (readings d).clear
    · rfl
    · have := hnc d (hwf d hc)
      rw [hc] at this
      exact absurd this (by simp)
  have hfind : priority.find?
      (fun d => default_cams.contains d && (readings d).clear) = none := by
    apply List.find?_eq_none.mpr
    intro x _
    simp [hclear x]
  have hmem0 : d0 ∈ default_cams.filter (fun d => (readings d).available) :=
    List.mem_filter.mpr ⟨mem_default_cams d0, ha0⟩
  obtain ⟨r, hr⟩ : ∃ r, minKeyFirst (fun d => (readings d).path_obstacles)
      (default_cams.filter (fun d => (readings d).available)) = some r := by
    cases hav : default_cams.filter (fun d => (readings d).available) with
    | nil =>
      rw [hav] at hmem0
      exact absurd hmem0 (by simp)
    | cons x xs => exact ⟨_, by rw [minKeyFirst]⟩
  obtain ⟨l₁, l₂, hdec, hpre, hsuf⟩ := minKeyFirst_decomp _ hr
  have hrmem : r ∈ default_cams.filter (fun d => (readings d).available) := by
    rw [hdec]
    exact List.mem_append.mpr (Or.inr (List.mem_cons_self _ _))
  have hra : (readings r).available = true := by
    have := List.mem_filter.mp hrmem
    simpa using this.2
  have hgb : get_best_direction default_cams readings =
      { recommended_direction := Rec.ofDir r
        reason := capName r ++ " has fewest obstacles"
        should_move := true
        caution := true } := by
    unfold get_best_direction
    rw [hfind, hr]
  refine ⟨r, by rw [hgb], by rw [hgb], by rw [hgb], hra, ?_, ?_⟩
  · intro e hae
    have hemem : e ∈ default_cams.filter (fun d => (readings d).available) :=
      List.mem_filter.mpr ⟨mem_default_cams e, by simpa using hae⟩
    rw [hdec] at hemem
    rcases List.mem_append.mp hemem with h1 | h2
    · exact le_of_lt (hpre e h1)
    · rcases List.mem_cons.mp h2 with rfl | h3
      · exact le_refl _
      · exact hsuf e h3
  · intro e hae heq
    have hemem : e ∈ default_cams.filter (fun d => (readings d).available) :=
      List.mem_filter.mpr ⟨mem_default_cams e, by simpa using hae⟩
    rw [hdec] at hemem
    rcases List.mem_append.mp hemem with h1 | h2
    · exact absurd heq (ne_of_gt (hpre e h1))
    · rcases List.mem_cons.mp h2 with rfl | h3
      · exact le_refl _
      · have hpair := (default_cams_pairwise).filter
          (fun d => (readings d).available)
        exact le_of_lt (pairwise_suffix hpair hdec e h3)

/-- Witness for the amended C3: every direction available with equal
obstacle counts and nothing clear. -/
theorem C3_amended_witness :
    ∃ d, (get_best_direction default_cams
        (fun _ => DirReading.mk true false 1 1)).recommended_direction =
        Rec.ofDir d ∧
      (get_best_direction default_cams
        (fun _ => DirReading.mk true false 1 1)).caution = true ∧
      (get_best_direction default_cams
        (fun _ => DirReading.mk true false 1 1)).should_move = true ∧
      ((fun (_ : Direction) => DirReading.mk true false 1 1) d).available = true ∧
      (∀ e, ((fun (_ : Direction) => DirReading.mk true false 1 1) e).available = true →
        ((fun (_ : Direction) => DirReading.mk true false 1 1) d).path_obstacles ≤
          ((fun (_ : Direction) => DirReading.mk true false 1 1) e).path_obstacles) ∧
      ∀ e, ((fun (_ : Direction) => DirReading.mk true false 1 1) e).available = true →
        ((fun (_ : Direction) => DirReading.mk true false 1 1) e).path_obstacles =
          ((fun (_ : Direction) => DirReading.mk true false 1 1) d).path_obstacles →
        camIndex d ≤ camIndex e :=
  C3_amended (fun _ => DirReading.mk true false 1 1) (fun _ _ => rfl)
    (fun _ _ => rfl) ⟨Direction.front, rfl⟩
